import Mathlib

/-!
Verification of the Playwright-MCP agent core (ai_agent.py, mcp_client.py,
agent_cli.py) via a shallow embedding in Lean 4.  External effects (the
browser page, the LLM backend, the MCP transport) are modelled as explicit
oracles; Python exceptions are modelled with `Except` / `Option`.
-/

namespace Agent

/- ===================== string helpers ===================== -/

def spaceC : Char := Char.ofNat 32
def newlineC : Char := Char.ofNat 10
def dquoteC : Char := Char.ofNat 34
def squoteC : Char := Char.ofNat 39
def hyphenC : Char := Char.ofNat 45

/-- Python `s.lower()` (character-wise). -/
def toLowerStr (s : String) : String := String.mk (s.toList.map Char.toLower)

/-- Python `s.upper()` (character-wise). -/
def toUpperStr (s : String) : String := String.mk (s.toList.map Char.toUpper)

/-- Python `.strip()` over a char list. -/
def stripWS (l : List Char) : List Char :=
  ((l.dropWhile Char.isWhitespace).reverse.dropWhile Char.isWhitespace).reverse

/-- Python `s.strip()`. -/
def pyStrip (s : String) : String := String.mk (stripWS s.toList)

/-- Python `s.replace("\n", " ")`. -/
def replaceNewlines (s : String) : String :=
  String.mk (s.toList.map (fun c => if c = newlineC then spaceC else c))

/-- Python `s.startswith(pre)`. -/
def startsWithStr (s pre : String) : Bool := pre.toList.isPrefixOf s.toList

/-- Lowercased character list of a string (Python `s.lower()` viewed as chars). -/
def lowerL (s : String) : List Char := s.toList.map Char.toLower

/-- Python `ln.startswith(c)` over char lists: `c` begins `n`. -/
def startsWithL (n c : List Char) : Bool := c.isPrefixOf n

/-- Python `c in ln` (substring containment) over char lists: needle `c` occurs in `n`. -/
def containsSubL (n c : List Char) : Bool :=
  match n with
  | [] => c.isEmpty
  | _ :: t => c.isPrefixOf n || containsSubL t c

/-- Python `sub in s` on strings. -/
def strContains (s sub : String) : Bool := containsSubL s.toList sub.toList

theorem startsWithL_containsSubL (n c : List Char) (h : startsWithL n c = true) :
    containsSubL n c = true := by
  cases n with
  | nil =>
    cases c with
    | nil => rfl
    | cons x xs => simp [startsWithL, List.isPrefixOf] at h
  | cons x xs => simp [containsSubL, startsWithL] at h ⊢; exact Or.inl h

/- ===================== ACTION_SCHEMA (ai_agent.py) ===================== -/

/-- One plan step: a JSON object with a required `action` field (modelled as
`Option String` since a parsed object may lack it) and the optional typed
fields the schema declares.  The JSON field `assert` is named `assertVal`. -/
structure Step where
  action : Option String := none
  url : Option String := none
  selector : Option String := none
  role : Option String := none
  name : Option String := none
  value : Option String := none
  assertVal : Option String := none
  timeout_ms : Option Nat := none
deriving DecidableEq, Repr

abbrev Plan := List Step

/-- The closed `enum` of action kinds in ACTION_SCHEMA. -/
def ACTION_ENUM : List String :=
  ["goto", "fill", "click", "press", "wait_for",
   "extract", "assert_text", "select_option", "scroll", "sleep"]

/-- Draft-7 validation of one item: `action` must be present and in the enum
(the typed optional fields are well-typed by construction of `Step`). -/
def validStep (s : Step) : Bool :=
  match s.action with
  | none => false
  | some a => ACTION_ENUM.contains a

/-- Draft-7 validation of a plan against ACTION_SCHEMA. -/
def validatePlan (p : Plan) : Bool := p.all validStep

/-- `any(step.get("action") == "extract" for step in plan)`. -/
def hasExtract (p : Plan) : Bool := p.any (fun s => s.action == some "extract")

/- ===================== context builder (ai_agent.py) ===================== -/

/-- Exception classes the executor distinguishes: the Playwright
TimeoutError, tenacity's RetryError (raised when a retry-decorated helper
exhausts its attempts, since `reraise` defaults to False), and everything
else (RuntimeError, AssertionError, driver errors, ...). -/
inductive Exn
  | pwTimeout
  | retryError
  | other
deriving DecidableEq, Repr


/-- One interactive element descriptor (`{"role": ..., "name": ...}`). -/
structure Element where
  role : Option String
  name : Option String
deriving DecidableEq, Repr

/-- A node of the accessibility snapshot tree. -/
inductive AXNode
  | mk (role : Option String) (name : Option String) (children : List AXNode)

/-- The roles `walk` collects. -/
def WALK_ROLES : List String :=
  ["textbox", "button", "link", "combobox", "menuitem", "checkbox", "radio", "img"]

mutual
/-- `walk(node)`: append the node if its role is interactive, then recurse
into its children in order. -/
def walkNode : AXNode → List Element
  | AXNode.mk role name children =>
    (match role with
     | some r => if WALK_ROLES.contains r then [⟨some r, name⟩] else []
     | none => []) ++ walkList children

def walkList : List AXNode → List Element
  | [] => []
  | n :: rest => walkNode n ++ walkList rest
end

/-- The normalized snapshot the MCP client returns from `get_page_context`. -/
structure MCPData where
  url : String
  title : String
  elements : List Element
deriving Repr

/-- How the MCP-first path of `build_page_context` went: the bridge is not
configured (`build_playwright_mcp()` returned None), some exception was
raised anywhere in the attempt, or the bridge produced a response
(possibly None, possibly with an empty element list). -/
inductive RemotePath
  | notConfigured
  | raises
  | returns (data : Option MCPData)

/-- The live page as seen by `build_page_context`: the current URL, the
accessibility snapshot (`Except.error` = the call raised; `none` = it
returned None), the `data-testid` probe (guarded by try/except in the
source), the two hint probes, and the outcome of the remote MCP path.
The hint probes model the two `page.locator(...).count()` calls behind
`has_search_box` / `has_submit_btn`: unlike the snapshot and testid probes
these are NOT wrapped in try/except in the source, so a raised exception
(`Except.error`) propagates out of `build_page_context`. -/
structure Page where
  url : String
  snapshot : Except Unit (Option AXNode)
  testids : Except Unit (List String)
  searchBoxCount : Except Exn Nat
  submitBtnCount : Except Exn Nat
  remote : RemotePath

structure Hints where
  has_search_box : Bool
  has_submit_btn : Bool
deriving DecidableEq, Repr

/-- A page context.  The mcp-sourced variant carries `url`, `title`,
`elements` and empty `testids`/`hints` (per `get_page_context`'s
normalization); the local variant fills every field. -/
structure Ctx where
  source : String
  url : String
  title : Option String := none
  elements : List Element
  testids : List String := []
  hints : Option Hints := none
deriving Repr

/-- The local-introspection fallback of `build_page_context`: accessibility
walk (snapshot failures degrade to an empty tree, guarded by try/except),
testid probe (failures degrade to an empty list, guarded by try/except), and
the two locator-count hints, whose `page.locator(...).count()` calls are NOT
guarded: an exception there propagates (search-box probe runs first). -/
def localContext (page : Page) : Except Exn Ctx :=
  let ax : Option AXNode :=
    match page.snapshot with
    | Except.ok a => a
    | Except.error _ => none
  let elements :=
    match ax with
    | some n => walkNode n
    | none => []
  let testids :=
    match page.testids with
    | Except.ok t => t
    | Except.error _ => []
  match page.searchBoxCount with
  | Except.error e => Except.error e
  | Except.ok n1 =>
    match page.submitBtnCount with
    | Except.error e => Except.error e
    | Except.ok n2 =>
      Except.ok
        { source := "local", url := page.url, elements := elements, testids := testids,
          hints := some ⟨decide (n1 > 0), decide (n2 > 0)⟩ }

/-- `build_page_context`: MCP first; its data is used only when it is a dict
with a non-empty `elements` list, in which case it is tagged `__source =
"mcp"`; otherwise (not configured, raised, no data, empty elements) the local
fallback runs — which itself raises if one of its two unguarded
locator-count probes raises. -/
def build_page_context (page : Page) : Except Exn Ctx :=
  match page.remote with
  | RemotePath.returns (some d) =>
    if !d.elements.isEmpty then
      Except.ok { source := "mcp", url := d.url, title := some d.title,
                  elements := d.elements }
    else localContext page
  | _ => localContext page

/- ===================== plan generator (ai_agent.py) ===================== -/

structure PlanMeta where
  source : String
  model : Option String
deriving DecidableEq, Repr

def MODEL_CANDIDATES : List String :=
  ["models/gemini-2.5-flash", "models/gemini-2.5-flash-lite", "models/gemini-2.5-pro"]

/-- The loop body of `_try_gemini_plan`: for each model id, the oracle
`gemini` yields the parsed JSON plan of that model's response (`none` for any
call/parse failure or empty text).  An invalid plan (validation raises, caught
by the loop) or a plan without an `extract` step advances to the next model. -/
def tryGeminiGo (gemini : String → Option Plan) : List String → Option (Plan × PlanMeta)
  | [] => none
  | mid :: rest =>
    match gemini mid with
    | none => tryGeminiGo gemini rest
    | some plan =>
      if validatePlan plan && hasExtract plan then
        some (plan, ⟨"gemini", some mid⟩)
      else tryGeminiGo gemini rest

/-- `_try_gemini_plan`: `avail` models "an API key is set and the client
library configures successfully"; otherwise the function returns None. -/
def _try_gemini_plan (avail : Bool) (gemini : String → Option Plan) :
    Option (Plan × PlanMeta) :=
  if avail then tryGeminiGo gemini MODEL_CANDIDATES else none

/-- `_fallback_plan`: the fixed five-step heuristic plan. -/
def _fallback_plan (goal : String) (_context : Ctx) : Plan :=
  [ { action := some "wait_for", selector := some "input[placeholder*='Search' i]",
      timeout_ms := some 7000 },
    { action := some "fill", selector := some "input[placeholder*='Search' i]",
      value := some goal },
    { action := some "press", selector := some "input[placeholder*='Search' i]",
      value := some "Enter" },
    { action := some "wait_for", selector := some "a[href*='/d/']",
      timeout_ms := some 15000 },
    { action := some "extract", selector := some "a[href*='/d/']" } ]

/-- The plan/meta pair chosen before the final schema check of
`plan_actions_via_llm_mcp`: the Gemini result if any, else the fallback. -/
def chooseGemini (avail : Bool) (gemini : String → Option Plan)
    (goal : String) (context : Ctx) : Plan × PlanMeta :=
  match _try_gemini_plan avail gemini with
  | some t => t
  | none => (_fallback_plan goal context, ⟨"fallback", none⟩)

/-- `plan_actions_via_llm_mcp`: Gemini first, else fallback; a final schema
check (catching ValidationError) substitutes the fallback once more. -/
def plan_actions_via_llm_mcp (avail : Bool) (gemini : String → Option Plan)
    (goal : String) (context : Ctx) : Plan × PlanMeta :=
  if validatePlan (chooseGemini avail gemini goal context).1 then
    chooseGemini avail gemini goal context
  else (_fallback_plan goal context, ⟨"fallback", none⟩)

theorem tryGeminiGo_sound (gemini : String → Option Plan) (l : List String)
    (p : Plan) (m : PlanMeta) (h : tryGeminiGo gemini l = some (p, m)) :
    validatePlan p = true ∧ hasExtract p = true := by
  induction l with
  | nil => simp [tryGeminiGo] at h
  | cons mid rest ih =>
    simp only [tryGeminiGo] at h
    split at h
    · exact ih h
    · split at h
      · rename_i hv
        simp only [Option.some.injEq, Prod.mk.injEq] at h
        rcases h with ⟨h1, -⟩
        subst h1
        rw [Bool.and_eq_true] at hv
        exact hv
      · exact ih h

theorem validatePlan_fallback (goal : String) (c : Ctx) :
    validatePlan (_fallback_plan goal c) = true := rfl

theorem hasExtract_fallback (goal : String) (c : Ctx) :
    hasExtract (_fallback_plan goal c) = true := rfl

/- ===================== _match_tool (mcp_client.py) ===================== -/

/-- The per-candidate body of `_match_tool`'s loop: scan the discovered tool
names for a lowercase-startswith match, then for a lowercase-contains match. -/
def matchOne (names : List String) (c : String) : Option String :=
  match names.find? (fun n => startsWithL (lowerL n) (lowerL c)) with
  | some n => some n
  | none => names.find? (fun n => containsSubL (lowerL n) (lowerL c))

/-- `_match_tool`: candidates in priority order; for each candidate, first the
discovered tool name list is scanned for a lowercase-startswith match, then for
a lowercase-contains match; only then is the next candidate tried. -/
def _match_tool (names : List String) (candidates : List String) : Option String :=
  match candidates with
  | [] => none
  | c :: rest =>
    match matchOne names c with
    | some n => some n
    | none => _match_tool names rest

/- ===================== plan executor (ai_agent.py) ===================== -/

/-- Outcome of one underlying driver call (the page is an external oracle). -/
inductive Outcome
  | ok
  | timeout
  | err
deriving DecidableEq, Repr

/-- Oracle describing how the live page reacts to one plan step:
`attempts` gives the outcome of each successive attempt of the step's main
driver call (default: success), `loadState` the outcome of the
`wait_for_load_state` that follows goto/click, `innerText` the text
`inner_text()` returns, `href` the value of `get_attribute("href")` (`none`
for a null attribute or a raised exception, which `_do_extract` swallows). -/
structure StepBehavior where
  attempts : List Outcome := []
  loadState : Outcome := Outcome.ok
  innerText : String := ""
  href : Option String := none
deriving DecidableEq, Repr

instance : Inhabited StepBehavior := ⟨{}⟩

/-- Python truthiness of an optional string field (None and "" are falsy). -/
def truthy : Option String → Bool
  | none => false
  | some s => s != ""

/-- `_loc` resolves a locator from truthy `(role, name)` or a truthy
`selector`; otherwise it raises RuntimeError. -/
def locOk (s : Step) : Bool := (truthy s.role && truthy s.name) || truthy s.selector

/-- Outcome of attempt `i` of a step whose body starts with `_loc`:
an unresolvable locator raises (a non-timeout error) on every attempt. -/
def attemptOutcome (b : StepBehavior) (s : Step) (i : Nat) : Outcome :=
  if locOk s then b.attempts.getD i Outcome.ok else Outcome.err

/-- Exception raised by an undecorated driver call with the given outcome. -/
def directExn : Outcome → Option Exn
  | Outcome.ok => none
  | Outcome.timeout => some Exn.pwTimeout
  | Outcome.err => some Exn.other

/-- tenacity `@retry(stop=stop_after_attempt maxAttempts)` with default
`reraise=False`: retry on any exception; once the attempts are exhausted
raise RetryError (never the original exception).  Returns the number of
attempts performed and the raised exception, if any. -/
def retryRunGo (att : Nat → Outcome) : Nat → Nat → Nat × Option Exn
  | i, 0 => (i, some Exn.retryError)
  | i, fuel + 1 =>
    match att i with
    | Outcome.ok => (i + 1, none)
    | _ => if fuel = 0 then (i + 1, some Exn.retryError) else retryRunGo att (i + 1) fuel

def retryRun (maxAttempts : Nat) (att : Nat → Outcome) : Nat × Option Exn :=
  retryRunGo att 0 maxAttempts

/-- What an `extract` step captures: `{"text": ..., "href": ...}` with the
text stripped and newlines replaced, and a relative href absolutized. -/
structure Extracted where
  text : String
  href : Option String
deriving DecidableEq, Repr

def extractCapture (b : StepBehavior) : Extracted :=
  { text := replaceNewlines (pyStrip b.innerText),
    href :=
      match b.href with
      | none => none
      | some h =>
        some (if h ≠ "" && !startsWithStr h "http" then "https://data.lacity.org" ++ h else h) }

/-- A retry-decorated helper (`_do_wait_for`, `_do_fill`, `_do_click`): the
ghost effect trace records one driver call per attempt that reached the page. -/
def retriedRun (maxAttempts : Nat) (b : StepBehavior) (s : Step) (nm : String) :
    Option Exn × List String :=
  ((retryRun maxAttempts (attemptOutcome b s)).2,
   if locOk s then List.replicate (retryRun maxAttempts (attemptOutcome b s)).1 nm else [])

/-- `_do_assert_text`: read the target's text and require the expected
substring; a mismatch raises AssertionError (a non-timeout error). -/
def runAssertText (b : StepBehavior) (s : Step) : Option Exn × List String :=
  if locOk s then
    match b.attempts.getD 0 Outcome.ok with
    | Outcome.ok =>
      (if strContains (pyStrip b.innerText) (s.assertVal.getD "") then none else some Exn.other,
       ["assert_text"])
    | Outcome.timeout => (some Exn.pwTimeout, ["assert_text"])
    | Outcome.err => (some Exn.other, ["assert_text"])
  else (some Exn.other, [])

/-- The keys of ACTION_MAP ("extract" is handled specially by the loop;
"select_option" has no entry). -/
def ACTION_MAP_keys : List String :=
  ["goto", "fill", "click", "press", "wait_for", "scroll", "sleep", "assert_text"]

/-- Dispatch of one ACTION_MAP handler, returning the exception it raises (if
any) and the ghost trace of driver calls it performed. -/
def runAction (b : StepBehavior) (s : Step) (a : String) : Option Exn × List String :=
  if a = "goto" then
    if truthy s.url then (directExn (b.attempts.getD 0 Outcome.ok), ["goto"])
    else (some Exn.other, [])
  else if a = "fill" then retriedRun 2 b s "fill"
  else if a = "click" then retriedRun 2 b s "click"
  else if a = "press" then
    if locOk s then (directExn (b.attempts.getD 0 Outcome.ok), ["press"])
    else (some Exn.other, [])
  else if a = "wait_for" then retriedRun 3 b s "wait_for"
  else if a = "scroll" then (directExn (b.attempts.getD 0 Outcome.ok), ["scroll"])
  else if a = "sleep" then (none, [])
  else runAssertText b s

/-- The result dict of `execute_steps`: it always carries the key
`extracted` (initialized to None) plus the ghost trace of driver calls. -/
structure ExecResult where
  extracted : Option Extracted
  effects : List String
deriving DecidableEq, Repr

/-- One iteration of the `execute_steps` loop: steps without an action are
skipped; `extract` runs outside the try/except, so its exceptions propagate;
other recognized actions re-raise PWTimeout, soft-fail every other exception,
and (for goto/click) wait for the load state, swallowing only timeouts there;
actions missing from ACTION_MAP are silently skipped. -/
def execStep (b : StepBehavior) (s : Step) (acc : Option Extracted) :
    Except Exn (Option Extracted × List String) :=
  match s.action with
  | none => Except.ok (acc, [])
  | some a =>
    if a = "extract" then
      if locOk s then
        match b.attempts.getD 0 Outcome.ok with
        | Outcome.ok => Except.ok (some (extractCapture b), ["extract"])
        | Outcome.timeout => Except.error Exn.pwTimeout
        | Outcome.err => Except.error Exn.other
      else Except.error Exn.other
    else if ACTION_MAP_keys.contains a then
      match runAction b s a with
      | (some Exn.pwTimeout, _) => Except.error Exn.pwTimeout
      | (_, effs) =>
        if a = "goto" || a = "click" then
          match b.loadState with
          | Outcome.err => Except.error Exn.other
          | _ => Except.ok (acc, effs ++ ["wait_load"])
        else Except.ok (acc, effs)
    else Except.ok (acc, [])

/-- The `execute_steps` loop over a plan zipped with its page oracle. -/
def execSteps : List (Step × StepBehavior) → Option Extracted →
    Except Exn (Option Extracted × List String)
  | [], acc => Except.ok (acc, [])
  | (s, b) :: rest, acc =>
    match execStep b s acc with
    | Except.error e => Except.error e
    | Except.ok (acc', effs) =>
      match execSteps rest acc' with
      | Except.error e => Except.error e
      | Except.ok (accF, effsR) => Except.ok (accF, effs ++ effsR)

/-- `execute_steps(page, steps)`: result dict starts with `extracted = None`. -/
def execute_steps (zs : List (Step × StepBehavior)) : Except Exn ExecResult :=
  match execSteps zs none with
  | Except.error e => Except.error e
  | Except.ok (acc, effs) => Except.ok ⟨acc, effs⟩

/- ============== keyword extractor (agent_cli.py) ============== -/

/-- First half of `re.sub(r"\s+", " ", text)`: map every whitespace char to a
plain space. -/
def wsToSpace (l : List Char) : List Char :=
  l.map (fun c => if c.isWhitespace then spaceC else c)

/-- Second half of `re.sub(r"\s+", " ", text)`: collapse runs of spaces. -/
def dedupSpaces : List Char → List Char
  | [] => []
  | [c] => [c]
  | a :: b :: rest =>
    if a = spaceC && b = spaceC then dedupSpaces (b :: rest)
    else a :: dedupSpaces (b :: rest)

/-- `re.sub(r"\s+", " ", text).strip()`. -/
def normalizeWS (l : List Char) : List Char := stripWS (dedupSpaces (wsToSpace l))

/-- Split a char list at the first occurrence of `d` (the closing quote);
`none` when `d` does not occur. -/
def takeUntilChar (d : Char) : List Char → Option (List Char × List Char)
  | [] => none
  | c :: rest =>
    if c = d then some ([], rest)
    else
      match takeUntilChar d rest with
      | some (pre, post) => some (c :: pre, post)
      | none => none

theorem takeUntilChar_length (d : Char) (l pre post : List Char)
    (h : takeUntilChar d l = some (pre, post)) : post.length < l.length := by
  induction l generalizing pre post with
  | nil => simp [takeUntilChar] at h
  | cons c rest ih =>
    simp only [takeUntilChar] at h
    split at h
    · simp only [Option.some.injEq, Prod.mk.injEq] at h
      rcases h with ⟨-, h2⟩
      subst h2
      simp
    · split at h
      · rename_i pre' post' heq
        simp only [Option.some.injEq, Prod.mk.injEq] at h
        rcases h with ⟨-, h2⟩
        subst h2
        have := ih pre' post' heq
        simp only [List.length_cons]
        omega
      · exact absurd h (by simp)

/-- `re.findall(r'"([^"]+)"|\x27([^\x27]+)\x27', s)`: scan left to right; at a
quote char, a non-empty quoted phrase closed by the same kind of quote is
captured and scanning resumes after it; otherwise scanning advances one char.
The fuel argument (initialized to the list length, which strictly bounds the
recursion depth) only makes the recursion structural. -/
def findPhrasesGo : Nat → List Char → List String
  | 0, _ => []
  | _ + 1, [] => []
  | fuel + 1, c :: rest =>
    if c = dquoteC then
      match takeUntilChar dquoteC rest with
      | some (content, rest') =>
        if content.isEmpty then findPhrasesGo fuel rest
        else String.mk content :: findPhrasesGo fuel rest'
      | none => findPhrasesGo fuel rest
    else if c = squoteC then
      match takeUntilChar squoteC rest with
      | some (content, rest') =>
        if content.isEmpty then findPhrasesGo fuel rest
        else String.mk content :: findPhrasesGo fuel rest'
      | none => findPhrasesGo fuel rest
    else findPhrasesGo fuel rest

def findPhrases (l : List Char) : List String := findPhrasesGo l.length l

/-- `re.sub(r'["\x27]', "", s)`. -/
def removeQuotes (l : List Char) : List Char :=
  l.filter (fun c => !(c = dquoteC || c = squoteC))

/-- Case-insensitive literal match at the head of the input (the literal is
given lowercased); returns the rest of the input on success. -/
def matchLitGo : List Char → List Char → Option (List Char)
  | [], l => some l
  | _ :: _, [] => none
  | a :: as, b :: bs => if a = b.toLower then matchLitGo as bs else none

def matchLit (lit : String) (l : List Char) : Option (List Char) :=
  matchLitGo lit.toList l

/-- Greedy `\s*`. -/
def skipWS (l : List Char) : List Char := l.dropWhile Char.isWhitespace

/-- `i\s*(want|would\s*like|need)\s*(to\s*(know|see|find|search))?`. -/
def matchAltA (l : List Char) : Option (List Char) :=
  match matchLit "i" l with
  | none => none
  | some l1 =>
    let l2 := skipWS l1
    match (matchLit "want" l2 <|>
           (match matchLit "would" l2 with
            | some x => matchLit "like" (skipWS x)
            | none => none) <|>
           matchLit "need" l2) with
    | none => none
    | some l3 =>
      let l4 := skipWS l3
      match matchLit "to" l4 with
      | some x =>
        let y := skipWS x
        match (matchLit "know" y <|> matchLit "see" y <|>
               matchLit "find" y <|> matchLit "search" y) with
        | some z => some z
        | none => some l4
      | none => some l4

/-- `tell\s*me`. -/
def matchAltB (l : List Char) : Option (List Char) :=
  match matchLit "tell" l with
  | some x => matchLit "me" (skipWS x)
  | none => none

/-- `show\s*me`. -/
def matchAltC (l : List Char) : Option (List Char) :=
  match matchLit "show" l with
  | some x => matchLit "me" (skipWS x)
  | none => none

/-- `can\s*you\s*(find|show)`. -/
def matchAltD (l : List Char) : Option (List Char) :=
  match matchLit "can" l with
  | some x =>
    match matchLit "you" (skipWS x) with
    | some y => matchLit "find" (skipWS y) <|> matchLit "show" (skipWS y)
    | none => none
  | none => none

/-- The whole anchored filler pattern
`^(A|B|C|D)\s*(about|for)?\s*` (case-insensitive). -/
def matchFiller (l : List Char) : Option (List Char) :=
  match (matchAltA l <|> matchAltB l <|> matchAltC l <|> matchAltD l) with
  | none => none
  | some m =>
    let m1 := skipWS m
    let m2 :=
      match (matchLit "about" m1 <|> matchLit "for" m1) with
      | some z => z
      | none => m1
    some (skipWS m2)

/-- `re.sub(filler, "", s, flags=re.I)` with the pattern anchored at `^`. -/
def stripFiller (l : List Char) : List Char :=
  match matchFiller l with
  | some rest => rest
  | none => l

def STOP : List String :=
  ["the", "a", "an", "and", "or", "of", "on", "in", "for", "to", "from", "with", "about",
   "at", "by", "into", "is", "are", "was", "were", "be", "been", "being", "that", "this",
   "these", "those", "it", "its", "as", "i", "we", "you", "they", "he", "she", "them", "me",
   "my", "our", "your", "their", "want", "would", "like", "know", "find", "search", "see",
   "please", "dataset", "datasets", "data"]

/-- `[A-Za-z0-9\-]`. -/
def isWordChar (c : Char) : Bool := c.isAlphanum || c = hyphenC

/-- `re.findall(r"[A-Za-z0-9\-]+", s)`: maximal runs of word chars. -/
def tokenizeGo : List Char → List Char → List String
  | [], cur => if cur.isEmpty then [] else [String.mk cur.reverse]
  | c :: rest, cur =>
    if isWordChar c then tokenizeGo rest (c :: cur)
    else if cur.isEmpty then tokenizeGo rest []
    else String.mk cur.reverse :: tokenizeGo rest []

def tokenize (l : List Char) : List String := tokenizeGo l []

/-- The stopword / short-token filter of the cleaning loop. -/
def keepToken (t : String) : Bool :=
  if STOP.contains (toLowerStr t) then false
  else if t.length ≤ 2 && !(["LA", "PD", "DPW"].contains (toUpperStr t)) then false
  else true

/-- Case-insensitive de-duplication preserving first-seen order (`seen` holds
lowercased tokens already emitted). -/
def dedupCIGo : List String → List String → List String
  | _, [] => []
  | seen, t :: rest =>
    if seen.contains (toLowerStr t) then dedupCIGo seen rest
    else t :: dedupCIGo (toLowerStr t :: seen) rest

/-- The token list `_extract_search_text` joins: normalize whitespace, capture
quoted phrases, drop quote chars, strip the leading filler, tokenize, filter
stopwords/short tokens, re-append the phrases, de-duplicate, truncate to 5,
normalize `la` to `LA`. -/
def searchTokens (text : String) : List String :=
  let s0 := normalizeWS text.toList
  let phrase_tokens := findPhrases s0
  let s1 := removeQuotes s0
  let s2 := stripFiller s1
  let cleaned := (tokenize s2).filter keepToken
  let deduped := dedupCIGo [] (cleaned ++ phrase_tokens)
  let truncated := if deduped.length > 5 then deduped.take 5 else deduped
  truncated.map (fun t => if toLowerStr t = "la" then "LA" else t)

/-- `_extract_search_text`. -/
def _extract_search_text (text : String) : String :=
  if text = "" then ""
  else pyStrip (String.intercalate " " (searchTokens text))

/- ===================== run_goal (agent_cli.py) ===================== -/

def START_URL : String := "https://data.lacity.org/"

structure ResultItem where
  title : String
  url : String
deriving DecidableEq, Repr

/-- One result anchor on the final page: the outcomes of `inner_text()` and
`get_attribute("href")` (each may raise; the loop then skips the anchor). -/
structure AnchorB where
  innerTextR : Except Unit String
  hrefR : Except Unit (Option String)

/-- The body of the anchor loop in step 5 of `run_goal`: any raised
exception, an empty title or a missing/empty href skips the anchor. -/
def anchorItem (a : AnchorB) : Option ResultItem :=
  match a.innerTextR, a.hrefR with
  | Except.ok t, Except.ok hOpt =>
    let title := replaceNewlines (pyStrip t)
    match hOpt with
    | none => none
    | some href =>
      if title = "" || href = "" then none
      else some ⟨title, if startsWithStr href "http" then href
                        else "https://data.lacity.org" ++ href⟩
  | _, _ => none

/-- Pair each planned step with the page's reaction to it (the i-th oracle
entry; steps beyond the oracle list behave as plain successes). -/
def zipB : List Step → List StepBehavior → List (Step × StepBehavior)
  | [], _ => []
  | s :: ss, [] => (s, default) :: zipB ss []
  | s :: ss, b :: bs => (s, b) :: zipB ss bs

/-- Step 4 of `run_goal`: execute the plan one step at a time, catching both
timeouts and other errors per step, and remember the last extract hit whose
text and href are both non-empty. -/
def stepLoopGo : List (Step × StepBehavior) → Option ResultItem → Option ResultItem
  | [], fh => fh
  | (s, b) :: rest, fh =>
    let fh' :=
      match execute_steps [(s, b)] with
      | Except.error _ => fh
      | Except.ok r =>
        match r.extracted with
        | none => fh
        | some eh =>
          if eh.text ≠ "" then
            match eh.href with
            | some h =>
              if h ≠ "" then
                some ⟨eh.text, if startsWithStr h "http" then h
                               else "https://data.lacity.org" ++ h⟩
              else fh
            | none => fh
          else fh
    stepLoopGo rest fh'

/-- Oracle for one whole `run_goal` invocation: the outcome of the opening
`page.goto(START_URL)`, the page given to `build_page_context`, the LLM
oracle of the planner, the page's reaction to each planned step, `page.url`
at step 5, the outcome of the explicit browse navigation, the anchor query
(`locator(sel).all()`, guarded) with its anchors, and the final
`extract_first_result` fallback (`Except.error` = it raised). -/
structure RunEnv where
  gotoHome : Outcome
  page : Page
  geminiAvail : Bool
  gemini : String → Option Plan
  stepBehaviors : List StepBehavior
  urlAfter : String
  gotoBrowse : Outcome
  anchorsQuery : Except Unit (List AnchorB)
  fallbackFirst : Except Unit (String × String)

/-- Everything inside the top-level `try:` of `run_goal`.  Only the two
unguarded `page.goto` calls can raise out of it; every other failure is
caught where it occurs (per-step try/except, guarded anchor reads, guarded
final fallback). -/
def runBody (env : RunEnv) (goal : String) : Except Exn (List ResultItem) := do
  match directExn env.gotoHome with
  | some e => throw e
  | none => pure ()
  let context ← build_page_context env.page
  let kw := _extract_search_text goal
  let plan := plan_actions_via_llm_mcp env.geminiAvail env.gemini kw context
  let first_hit := stepLoopGo (zipB plan.1 env.stepBehaviors) none
  match (if strContains env.urlAfter "browse" then none else directExn env.gotoBrowse) with
  | some e => throw e
  | none => pure ()
  let anchors :=
    match env.anchorsQuery with
    | Except.ok l => l
    | Except.error _ => []
  let results := (anchors.take 10).filterMap anchorItem
  let results :=
    match first_hit with
    | some f =>
      if results.all (fun r => r.url != f.url) then (f :: results).take 10 else results
    | none => results
  let results :=
    if results.isEmpty then
      match env.fallbackFirst with
      | Except.ok (t, u) => if t ≠ "" && u ≠ "" then [⟨t, u⟩] else []
      | Except.error _ => []
    else results
  return results

/-- What `run_goal` hands back: the result list, and whether the `finally:`
block closed the browser. -/
structure RunOutcome where
  results : List ResultItem
  browserClosed : Bool
deriving DecidableEq, Repr

/-- `run_goal`: the body under `try`, with `except PWTimeout` and
`except Exception` both producing `results = []`, and `finally` closing the
browser on every path. -/
def run_goal (env : RunEnv) (goal : String) : RunOutcome :=
  match runBody env goal with
  | Except.ok rs => ⟨rs, true⟩
  | Except.error Exn.pwTimeout => ⟨[], true⟩
  | Except.error _ => ⟨[], true⟩

/- ===================== claim theorems ===================== -/

theorem _try_gemini_plan_sound (avail : Bool) (gemini : String → Option Plan)
    (p : Plan) (m : PlanMeta) (h : _try_gemini_plan avail gemini = some (p, m)) :
    validatePlan p = true ∧ hasExtract p = true := by
  unfold _try_gemini_plan at h
  cases avail with
  | false => simp at h
  | true => exact tryGeminiGo_sound gemini MODEL_CANDIDATES p m (by simpa using h)

theorem chooseGemini_extract (avail : Bool) (gemini : String → Option Plan)
    (goal : String) (context : Ctx) :
    hasExtract (chooseGemini avail gemini goal context).1 = true := by
  unfold chooseGemini
  split
  · rename_i t ht
    exact (_try_gemini_plan_sound avail gemini t.1 t.2 (by rw [ht])).2
  · exact hasExtract_fallback goal context

/-- Claim C1: for every goal and context, the plan generator
`plan_actions_via_llm_mcp` returns a (plan, meta) pair (it is a total
function: every Python exception site is inside a try/except), the returned
plan validates against ACTION_SCHEMA, and it contains at least one step whose
action is "extract". -/
theorem plan_actions_via_llm_mcp_valid_extract (avail : Bool)
    (gemini : String → Option Plan) (goal : String) (context : Ctx) :
    validatePlan (plan_actions_via_llm_mcp avail gemini goal context).1 = true ∧
    hasExtract (plan_actions_via_llm_mcp avail gemini goal context).1 = true := by
  unfold plan_actions_via_llm_mcp
  by_cases hv : validatePlan (chooseGemini avail gemini goal context).1 = true
  · rw [if_pos hv]
    exact ⟨hv, chooseGemini_extract avail gemini goal context⟩
  · rw [if_neg hv]
    exact ⟨validatePlan_fallback goal context, hasExtract_fallback goal context⟩

/-- Claim C2 (code bug): a plan whose `wait_for` target never becomes visible
does NOT make `execute_steps` raise.  tenacity's `@retry` (with its default
`reraise=False`) wraps the three timeouts in a RetryError, which is not a
PWTimeout, so the `except PWTimeout: raise` arm is bypassed and the generic
`except Exception: pass` soft-fails the step: execution continues to the next
step (here an extract, whose capture is returned) instead of propagating a
timeout as the spec states. -/
theorem wait_for_timeout_swallowed :
    execute_steps
      [({ action := some "wait_for", selector := some "a[href*='/d/']",
          timeout_ms := some 15000 },
        { attempts := [Outcome.timeout, Outcome.timeout, Outcome.timeout] }),
       ({ action := some "extract", selector := some "a[href*='/d/']" },
        { innerText := "Crime Data", href := some "/d/abc" })] =
    Except.ok ⟨some ⟨"Crime Data", some "https://data.lacity.org/d/abc"⟩,
               ["wait_for", "wait_for", "wait_for", "extract"]⟩ := rfl

/-- The condition of claim C4 on the remote MCP path: it raised, is not
configured, or returned no data / zero elements. -/
def remoteDegraded : RemotePath → Bool
  | RemotePath.notConfigured => true
  | RemotePath.raises => true
  | RemotePath.returns none => true
  | RemotePath.returns (some d) => d.elements.isEmpty

/-- Counterexample to claim C4 as stated: the two hint probes of the local
path (`page.locator(...).count()` for the search box and the submit button)
are not wrapped in try/except, so on a page whose remote MCP path raised and
whose search-box count probe raises, `build_page_context` raises instead of
returning a local context: it is not total. -/
theorem build_page_context_can_raise :
    build_page_context
        ⟨"https://data.lacity.org/", Except.error (), Except.error (),
         Except.error Exn.other, Except.ok 0, RemotePath.raises⟩ =
      Except.error Exn.other := rfl

/-- Claim C4, amended: whenever the remote MCP path raises, is not
configured, or yields no usable elements, AND the two unguarded locator-count
hint probes of the local path succeed, `build_page_context` does not raise:
it returns the locally-introspected context, tagged `__source = "local"`
(the accessibility-snapshot and testid probes may still fail — those are
guarded and degrade to empty values). -/
theorem build_page_context_degrades_local (page : Page)
    (h : remoteDegraded page.remote = true)
    (hsb : ∃ n1, page.searchBoxCount = Except.ok n1)
    (hbt : ∃ n2, page.submitBtnCount = Except.ok n2) :
    build_page_context page = localContext page ∧
    ∃ c, localContext page = Except.ok c ∧ c.source = "local" := by
  have h1 : build_page_context page = localContext page := by
    unfold build_page_context
    cases hr : page.remote with
    | notConfigured => rfl
    | raises => rfl
    | returns data =>
      rw [hr] at h
      cases data with
      | none => rfl
      | some d =>
        simp only [remoteDegraded] at h
        simp [h]
  refine ⟨h1, ?_⟩
  obtain ⟨n1, hn1⟩ := hsb
  obtain ⟨n2, hn2⟩ := hbt
  unfold localContext
  rw [hn1, hn2]
  exact ⟨_, rfl, rfl⟩

/-- Witness for the amended claim C4 at a concrete page whose MCP path
raised and whose two hint probes succeed. -/
theorem build_page_context_degrades_local_witness :
    build_page_context
        ⟨"https://data.lacity.org/", Except.error (), Except.error (),
         Except.ok 2, Except.ok 0, RemotePath.raises⟩ =
      localContext
        ⟨"https://data.lacity.org/", Except.error (), Except.error (),
         Except.ok 2, Except.ok 0, RemotePath.raises⟩ ∧
    ∃ c, localContext
        ⟨"https://data.lacity.org/", Except.error (), Except.error (),
         Except.ok 2, Except.ok 0, RemotePath.raises⟩ = Except.ok c ∧
      c.source = "local" :=
  build_page_context_degrades_local _ rfl ⟨2, rfl⟩ ⟨0, rfl⟩

/-- Claim C7: the keyword extractor on "I want to know about the crimes in
LA" yields a token sequence containing "crimes" and "LA", of at most 5
tokens, with no stopword; joined it is "crimes LA". -/
theorem extract_search_text_crimes_la :
    ("crimes" ∈ searchTokens "I want to know about the crimes in LA") ∧
    ("LA" ∈ searchTokens "I want to know about the crimes in LA") ∧
    (searchTokens "I want to know about the crimes in LA").length ≤ 5 ∧
    (∀ t ∈ searchTokens "I want to know about the crimes in LA",
       STOP.contains (toLowerStr t) = false) ∧
    _extract_search_text "I want to know about the crimes in LA" = "crimes LA" := by
  decide

/-- Claim C8: the keyword extractor preserves the quoted phrase "General
Services" as one intact token of the output sequence. -/
theorem extract_search_text_quoted_phrase :
    ("General Services" ∈ searchTokens "Find datasets on \"General Services\"") ∧
    searchTokens "Find datasets on \"General Services\"" =
      ["General", "Services", "General Services"] := by
  decide

/-- Counterexample to claim C5 as stated: with discovered tools ["xa", "by"]
and candidates ["a", "b"], a tool name starting with a candidate exists ("by"
starts with "b"), yet `_match_tool` returns "xa", which starts with no
candidate: the contains-fallback of the first candidate wins over a
startswith match of a later candidate, because candidates are scanned in the
outer loop. -/
theorem match_tool_global_preference_fails :
    _match_tool ["xa", "by"] ["a", "b"] = some "xa" ∧
    (∃ n ∈ ["xa", "by"], ∃ c ∈ ["a", "b"], startsWithL (lowerL n) (lowerL c) = true) ∧
    (∀ c ∈ ["a", "b"], startsWithL (lowerL "xa") (lowerL c) = false) := by
  decide

theorem matchOne_none_iff (names : List String) (c : String) :
    matchOne names c = none ↔
      ∀ n ∈ names, containsSubL (lowerL n) (lowerL c) = false := by
  unfold matchOne
  cases h1 : names.find? (fun n => startsWithL (lowerL n) (lowerL c)) with
  | some n =>
    show some n = none ↔ _
    constructor
    · intro h; exact absurd h (by simp)
    · intro h
      have hn : n ∈ names := List.mem_of_find?_eq_some h1
      have hp : startsWithL (lowerL n) (lowerL c) = true := by
        simpa using List.find?_some h1
      have hc := startsWithL_containsSubL _ _ hp
      rw [h n hn] at hc
      cases hc
  | none =>
    show names.find? (fun n => containsSubL (lowerL n) (lowerL c)) = none ↔ _
    rw [List.find?_eq_none]
    constructor
    · intro h n hn
      simpa using h n hn
    · intro h n hn
      simp [h n hn]

theorem matchOne_some (names : List String) (c n : String)
    (h : matchOne names c = some n) :
    n ∈ names ∧ containsSubL (lowerL n) (lowerL c) = true := by
  unfold matchOne at h
  cases h1 : names.find? (fun m => startsWithL (lowerL m) (lowerL c)) with
  | some m =>
    rw [h1] at h
    simp only [Option.some.injEq] at h
    subst h
    exact ⟨List.mem_of_find?_eq_some h1,
           startsWithL_containsSubL _ _ (by simpa using List.find?_some h1)⟩
  | none =>
    rw [h1] at h
    exact ⟨List.mem_of_find?_eq_some h, by simpa using List.find?_some h⟩

theorem matchOne_startsWith (names : List String) (c n : String)
    (hn : n ∈ names) (hs : startsWithL (lowerL n) (lowerL c) = true) :
    ∃ m, matchOne names c = some m ∧ startsWithL (lowerL m) (lowerL c) = true := by
  unfold matchOne
  cases h1 : names.find? (fun x => startsWithL (lowerL x) (lowerL c)) with
  | some m => exact ⟨m, rfl, by simpa using List.find?_some h1⟩
  | none =>
    rw [List.find?_eq_none] at h1
    exact absurd hs (by simpa using h1 n hn)

/-- Claim C5, amended: `_match_tool` scans the candidates in priority order
and, for each candidate, prefers a tool name that starts with it
(case-insensitively) over one that merely contains it; a startswith match for
a later candidate does not outrank a contains match for an earlier one.  It
returns None exactly when no tool name contains (in particular, starts with)
any candidate; any returned name is a discovered tool name containing some
candidate; and whenever some tool name starts with the first candidate, the
returned name starts with the first candidate. -/
theorem match_tool_per_candidate_spec (names candidates : List String) :
    (_match_tool names candidates = none ↔
      ∀ c ∈ candidates, ∀ n ∈ names, containsSubL (lowerL n) (lowerL c) = false) ∧
    (∀ n, _match_tool names candidates = some n →
      n ∈ names ∧ ∃ c ∈ candidates, containsSubL (lowerL n) (lowerL c) = true) ∧
    (∀ c rest, candidates = c :: rest →
      (∃ n ∈ names, startsWithL (lowerL n) (lowerL c) = true) →
      ∃ m, _match_tool names candidates = some m ∧
        startsWithL (lowerL m) (lowerL c) = true) := by
  refine ⟨?_, ?_, ?_⟩
  · induction candidates with
    | nil => simp [_match_tool]
    | cons c rest ih =>
      simp only [_match_tool]
      cases hm : matchOne names c with
      | some n =>
        have hn := matchOne_some names c n hm
        constructor
        · intro h; exact absurd h (by simp)
        · intro h
          rw [h c (List.mem_cons_self c rest) n hn.1] at hn
          cases hn.2
      | none =>
        rw [matchOne_none_iff] at hm
        constructor
        · intro h c' hc' n hn
          rcases List.mem_cons.mp hc' with rfl | hc'
          · exact hm n hn
          · exact (ih.mp h) c' hc' n hn
        · intro h
          exact ih.mpr (fun c' hc' n hn => h c' (List.mem_cons_of_mem _ hc') n hn)
  · induction candidates with
    | nil => intro n h; simp [_match_tool] at h
    | cons c rest ih =>
      intro n h
      simp only [_match_tool] at h
      cases hm : matchOne names c with
      | some m =>
        rw [hm] at h
        simp only [Option.some.injEq] at h
        subst h
        have hms := matchOne_some names c m hm
        exact ⟨hms.1, c, List.mem_cons_self c rest, hms.2⟩
      | none =>
        rw [hm] at h
        obtain ⟨h1, c', hc', h2⟩ := ih n h
        exact ⟨h1, c', List.mem_cons_of_mem _ hc', h2⟩
  · intro c rest hcand hex
    subst hcand
    obtain ⟨n, hn, hs⟩ := hex
    obtain ⟨m, hm1, hm2⟩ := matchOne_startsWith names c n hn hs
    refine ⟨m, ?_, hm2⟩
    simp only [_match_tool, hm1]

/-- Witness for the amended claim C5 at concrete inputs: with tools
["Navigate_Page", "click_tool"] and candidates ["navigate"], a tool starting
with the first candidate exists and one is returned; with a candidate
matching nothing, None is returned. -/
theorem match_tool_per_candidate_spec_witness :
    (∃ m, _match_tool ["Navigate_Page", "click_tool"] ["navigate"] = some m ∧
       startsWithL (lowerL m) (lowerL "navigate") = true) ∧
    (_match_tool ["Navigate_Page", "click_tool"] ["zzz"] = none) := by
  constructor
  · exact (match_tool_per_candidate_spec ["Navigate_Page", "click_tool"]
      ["navigate"]).2.2 "navigate" [] rfl ⟨"Navigate_Page", by decide, by decide⟩
  · exact (match_tool_per_candidate_spec ["Navigate_Page", "click_tool"]
      ["zzz"]).1.mpr (by decide)

/- ============ executor lemmas for claims C3, C9, C10 ============ -/

theorem execSteps_append (xs ys : List (Step × StepBehavior)) (acc : Option Extracted) :
    execSteps (xs ++ ys) acc =
      match execSteps xs acc with
      | Except.error e => Except.error e
      | Except.ok (acc1, effs1) =>
        match execSteps ys acc1 with
        | Except.error e => Except.error e
        | Except.ok (accF, effsR) => Except.ok (accF, effs1 ++ effsR) := by
  induction xs generalizing acc with
  | nil =>
    simp only [List.nil_append, execSteps]
    cases h : execSteps ys acc with
    | error e => rfl
    | ok pr => obtain ⟨aF, eR⟩ := pr; simp
  | cons p rest ih =>
    obtain ⟨s, b⟩ := p
    cases hstep : execStep b s acc with
    | error e => simp [execSteps, hstep]
    | ok pr =>
      obtain ⟨acc1, effs1⟩ := pr
      cases h2 : execSteps rest acc1 with
      | error e => simp [execSteps, hstep, ih, h2]
      | ok pr2 =>
        obtain ⟨acc2, effs2⟩ := pr2
        cases h3 : execSteps ys acc2 with
        | error e => simp [execSteps, hstep, ih, h2, h3]
        | ok pr3 =>
          obtain ⟨acc3, effs3⟩ := pr3
          simp [execSteps, hstep, ih, h2, h3]

theorem execSteps_cons_ok (s : Step) (b : StepBehavior)
    (rest : List (Step × StepBehavior)) (acc acc1 : Option Extracted)
    (effs1 : List String) (h : execStep b s acc = Except.ok (acc1, effs1)) :
    execSteps ((s, b) :: rest) acc =
      match execSteps rest acc1 with
      | Except.error e => Except.error e
      | Except.ok (accF, effsR) => Except.ok (accF, effs1 ++ effsR) := by
  simp only [execSteps, h]

theorem execSteps_cons_err (s : Step) (b : StepBehavior)
    (rest : List (Step × StepBehavior)) (acc : Option Extracted) (e : Exn)
    (h : execStep b s acc = Except.error e) :
    execSteps ((s, b) :: rest) acc = Except.error e := by
  simp only [execSteps, h]

theorem execSteps_append_ok (xs ys : List (Step × StepBehavior))
    (acc acc1 : Option Extracted) (effs1 : List String)
    (h : execSteps xs acc = Except.ok (acc1, effs1)) :
    execSteps (xs ++ ys) acc =
      match execSteps ys acc1 with
      | Except.error e => Except.error e
      | Except.ok (accF, effsR) => Except.ok (accF, effs1 ++ effsR) := by
  rw [execSteps_append]
  simp only [h]

/-- What one loop iteration does to an `extract` step. -/
theorem execStep_extract (b : StepBehavior) (s : Step) (acc : Option Extracted)
    (hs : s.action = some "extract") :
    execStep b s acc =
      if locOk s then
        match b.attempts.getD 0 Outcome.ok with
        | Outcome.ok => Except.ok (some (extractCapture b), ["extract"])
        | Outcome.timeout => Except.error Exn.pwTimeout
        | Outcome.err => Except.error Exn.other
      else Except.error Exn.other := by
  unfold execStep
  rw [hs]
  rfl

theorem execStep_non_extract (b : StepBehavior) (s : Step) (acc acc' : Option Extracted)
    (effs : List String) (hne : s.action ≠ some "extract")
    (h : execStep b s acc = Except.ok (acc', effs)) : acc' = acc := by
  unfold execStep at h
  split at h
  · simp only [Except.ok.injEq, Prod.mk.injEq] at h
    exact h.1.symm
  · rename_i a ha
    split at h
    · rename_i heq
      exact absurd (by rw [ha, heq]) hne
    · split at h
      · split at h
        · exact absurd h (by simp)
        · split at h
          · split at h
            · exact absurd h (by simp)
            · simp only [Except.ok.injEq, Prod.mk.injEq] at h
              exact h.1.symm
          · simp only [Except.ok.injEq, Prod.mk.injEq] at h
            exact h.1.symm
      · simp only [Except.ok.injEq, Prod.mk.injEq] at h
        exact h.1.symm

theorem execSteps_no_extract (l : List (Step × StepBehavior)) (acc acc' : Option Extracted)
    (effs : List String) (h1 : ∀ p ∈ l, p.1.action ≠ some "extract")
    (h2 : execSteps l acc = Except.ok (acc', effs)) : acc' = acc := by
  induction l generalizing acc acc' effs with
  | nil =>
    simp only [execSteps, Except.ok.injEq, Prod.mk.injEq] at h2
    exact h2.1.symm
  | cons p rest ih =>
    obtain ⟨s, b⟩ := p
    simp only [execSteps] at h2
    split at h2
    · exact absurd h2 (by simp)
    · rename_i acc1 effs1 heq
      split at h2
      · exact absurd h2 (by simp)
      · rename_i accF effsR heq2
        simp only [Except.ok.injEq, Prod.mk.injEq] at h2
        have e1 : acc1 = acc :=
          execStep_non_extract b s acc acc1 effs1
            (h1 (s, b) (List.mem_cons_self _ _)) heq
        have e2 : accF = acc1 :=
          ih acc1 accF effsR (fun p hp => h1 p (List.mem_cons_of_mem _ hp)) heq2
        rw [← h2.1, e2, e1]

/-- Claim C9: `execute_steps` always returns a dict carrying the key
`extracted` (the `ExecResult.extracted` field, initialized to None): it is
None whenever no step of the plan is an extract, and when the plan ends in an
extract whose successors contain no further extract, the returned value is
that last extract's capture (each later extract overwrites earlier ones). -/
theorem execute_steps_extracted_field :
    (∀ (zs : List (Step × StepBehavior)) (r : ExecResult),
       (∀ p ∈ zs, p.1.action ≠ some "extract") →
       execute_steps zs = Except.ok r → r.extracted = none) ∧
    (∀ (l1 l2 : List (Step × StepBehavior)) (s : Step) (b : StepBehavior) (r : ExecResult),
       s.action = some "extract" →
       (∀ p ∈ l2, p.1.action ≠ some "extract") →
       execute_steps (l1 ++ (s, b) :: l2) = Except.ok r →
       r.extracted = some (extractCapture b)) := by
  constructor
  · intro zs r h1 h2
    unfold execute_steps at h2
    cases hE : execSteps zs none with
    | error e => rw [hE] at h2; exact absurd h2 (by simp)
    | ok pr =>
      obtain ⟨acc, effs⟩ := pr
      rw [hE] at h2
      simp only [Except.ok.injEq] at h2
      subst h2
      exact execSteps_no_extract zs none acc effs h1 hE
  · intro l1 l2 s b r hs hl2 h
    unfold execute_steps at h
    cases hE : execSteps (l1 ++ (s, b) :: l2) none with
    | error e => rw [hE] at h; exact absurd h (by simp)
    | ok pr =>
      obtain ⟨acc, effs⟩ := pr
      rw [hE] at h
      simp only [Except.ok.injEq] at h
      subst h
      show acc = some (extractCapture b)
      cases h1 : execSteps l1 none with
      | error e =>
        rw [execSteps_append, h1] at hE
        exact absurd hE (by simp)
      | ok pr1 =>
        obtain ⟨acc1, e1⟩ := pr1
        rw [execSteps_append_ok l1 ((s, b) :: l2) none acc1 e1 h1] at hE
        by_cases hloc : locOk s = true
        · cases ho : b.attempts.getD 0 Outcome.ok with
          | ok =>
            have hstep : execStep b s acc1 =
                Except.ok (some (extractCapture b), ["extract"]) := by
              rw [execStep_extract b s acc1 hs, if_pos hloc, ho]
            rw [execSteps_cons_ok s b l2 acc1 (some (extractCapture b))
                  ["extract"] hstep] at hE
            cases h2 : execSteps l2 (some (extractCapture b)) with
            | error e => rw [h2] at hE; exact absurd hE (by simp)
            | ok pr2 =>
              obtain ⟨acc2, e2⟩ := pr2
              rw [h2] at hE
              simp only [Except.ok.injEq, Prod.mk.injEq] at hE
              have hpres :=
                execSteps_no_extract l2 (some (extractCapture b)) acc2 e2 hl2 h2
              rw [← hE.1, hpres]
          | timeout =>
            have hstep : execStep b s acc1 = Except.error Exn.pwTimeout := by
              rw [execStep_extract b s acc1 hs, if_pos hloc, ho]
            rw [execSteps_cons_err s b l2 acc1 Exn.pwTimeout hstep] at hE
            exact absurd hE (by simp)
          | err =>
            have hstep : execStep b s acc1 = Except.error Exn.other := by
              rw [execStep_extract b s acc1 hs, if_pos hloc, ho]
            rw [execSteps_cons_err s b l2 acc1 Exn.other hstep] at hE
            exact absurd hE (by simp)
        · have hstep : execStep b s acc1 = Except.error Exn.other := by
            rw [execStep_extract b s acc1 hs, if_neg hloc]
          rw [execSteps_cons_err s b l2 acc1 Exn.other hstep] at hE
          exact absurd hE (by simp)

theorem execute_steps_extracted_field_witness :
    (∃ r, execute_steps [({ action := some "sleep" }, {})] = Except.ok r ∧
       r.extracted = none) ∧
    (∃ r, execute_steps
        [({ action := some "extract", selector := some "a" },
          { innerText := "Hello", href := some "/d/q" }),
         ({ action := some "sleep" }, {})] = Except.ok r ∧
       r.extracted = some (extractCapture { innerText := "Hello", href := some "/d/q" })) := by
  constructor
  · refine ⟨⟨none, []⟩, rfl, ?_⟩
    exact execute_steps_extracted_field.1 [({ action := some "sleep" }, {})]
      ⟨none, []⟩ (by decide) rfl
  · refine ⟨⟨some (extractCapture { innerText := "Hello", href := some "/d/q" }),
             ["extract"]⟩, rfl, ?_⟩
    exact execute_steps_extracted_field.2 []
      [({ action := some "sleep" }, {})]
      { action := some "extract", selector := some "a" }
      { innerText := "Hello", href := some "/d/q" }
      ⟨some (extractCapture { innerText := "Hello", href := some "/d/q" }), ["extract"]⟩
      rfl (by decide) rfl

/-- Claim C10: a `select_option` step is accepted by ACTION_SCHEMA (its kind
is in the enum), yet `execute_steps` performs no operation for it: it has no
entry in ACTION_MAP, so the step is skipped silently — no exception, no
driver call (empty effect trace) and an unchanged result accumulator. -/
theorem select_option_validates_but_skipped (s : Step) (b : StepBehavior)
    (acc : Option Extracted) (h : s.action = some "select_option") :
    validStep s = true ∧
    ACTION_MAP_keys.contains "select_option" = false ∧
    execStep b s acc = Except.ok (acc, []) := by
  refine ⟨?_, by decide, ?_⟩
  · unfold validStep
    rw [h]
    rfl
  · unfold execStep
    rw [h]
    rfl

/-- Witness for claim C10 at a concrete select_option step. -/
theorem select_option_validates_but_skipped_witness :
    validStep { action := some "select_option", selector := some "#x" } = true ∧
    ACTION_MAP_keys.contains "select_option" = false ∧
    execStep {} { action := some "select_option", selector := some "#x" } none =
      Except.ok (none, []) :=
  select_option_validates_but_skipped
    { action := some "select_option", selector := some "#x" } {} none rfl

/- ============ retry lemmas and claim C3 ============ -/

theorem retryRunGo_two (att : Nat → Outcome) :
    retryRunGo att 0 2 =
      match att 0 with
      | Outcome.ok => (1, none)
      | _ => retryRunGo att 1 1 := rfl

theorem retryRunGo_one (att : Nat → Outcome) :
    retryRunGo att 1 1 =
      match att 1 with
      | Outcome.ok => (2, none)
      | _ => (2, some Exn.retryError) := rfl

/-- tenacity with `stop_after_attempt(2)` on a call that raises on both
attempts: two attempts are made and RetryError is raised. -/
theorem retryRun_two_err (att : Nat → Outcome)
    (h0 : att 0 = Outcome.err) (h1 : att 1 = Outcome.err) :
    retryRun 2 att = (2, some Exn.retryError) := by
  show retryRunGo att 0 2 = _
  rw [retryRunGo_two, h0, retryRunGo_one, h1]

/-- A `click` step that raises a non-timeout error on both of its attempts is
soft-failed: tenacity raises RetryError, which the loop's generic
`except Exception: pass` swallows; the post-click load-state wait then runs
and (unless it raises a non-timeout error itself) the loop continues. -/
theorem execStep_click_soft_fail (b : StepBehavior) (s : Step) (acc : Option Extracted)
    (hact : s.action = some "click") (hloc : locOk s = true)
    (hf0 : b.attempts.getD 0 Outcome.ok = Outcome.err)
    (hf1 : b.attempts.getD 1 Outcome.ok = Outcome.err)
    (hload : b.loadState ≠ Outcome.err) :
    execStep b s acc = Except.ok (acc, ["click", "click", "wait_load"]) := by
  have ha0 : attemptOutcome b s 0 = Outcome.err := by
    unfold attemptOutcome; rw [if_pos hloc]; exact hf0
  have ha1 : attemptOutcome b s 1 = Outcome.err := by
    unfold attemptOutcome; rw [if_pos hloc]; exact hf1
  have hra : runAction b s "click" = (some Exn.retryError, ["click", "click"]) := by
    show retriedRun 2 b s "click" = _
    unfold retriedRun
    rw [retryRun_two_err (attemptOutcome b s) ha0 ha1, if_pos hloc]
    rfl
  have hcl : execStep b s acc =
      match b.loadState with
      | Outcome.err => Except.error Exn.other
      | _ => Except.ok (acc, ["click", "click"] ++ ["wait_load"]) := by
    unfold execStep
    rw [hact]
    show (match runAction b s "click" with
          | (some Exn.pwTimeout, _) => Except.error Exn.pwTimeout
          | (_, effs) =>
            match b.loadState with
            | Outcome.err => Except.error Exn.other
            | _ => Except.ok (acc, effs ++ ["wait_load"])) = _
    rw [hra]
  rw [hcl]
  cases hl : b.loadState with
  | err => exact absurd hl hload
  | ok => rfl
  | timeout => rfl

/-- Claim C3: in a plan [click, ..., extract] whose click step fails on both
attempts with a non-timeout error (and whose middle steps run without
raising), `execute_steps` does not abort: the trailing extract still runs and
its captured {text, href} is returned in the result's `extracted` field. -/
theorem click_soft_fail_reaches_extract
    (cs : Step) (cb : StepBehavior) (mid : List (Step × StepBehavior))
    (es : Step) (eb : StepBehavior)
    (hact : cs.action = some "click") (hloc : locOk cs = true)
    (hf0 : cb.attempts.getD 0 Outcome.ok = Outcome.err)
    (hf1 : cb.attempts.getD 1 Outcome.ok = Outcome.err)
    (hload : cb.loadState ≠ Outcome.err)
    (hmid : ∃ effsM, execSteps mid none = Except.ok (none, effsM))
    (hes : es.action = some "extract") (hesloc : locOk es = true)
    (heok : eb.attempts.getD 0 Outcome.ok = Outcome.ok) :
    ∃ r, execute_steps ((cs, cb) :: (mid ++ [(es, eb)])) = Except.ok r ∧
      r.extracted = some (extractCapture eb) := by
  obtain ⟨effsM, hm⟩ := hmid
  have hstep := execStep_click_soft_fail cb cs none hact hloc hf0 hf1 hload
  have hext : execStep eb es none =
      Except.ok (some (extractCapture eb), ["extract"]) := by
    rw [execStep_extract eb es none hes, if_pos hesloc, heok]
  have hA : execSteps ((cs, cb) :: (mid ++ [(es, eb)])) none =
      Except.ok (some (extractCapture eb),
        ["click", "click", "wait_load"] ++ (effsM ++ (["extract"] ++ []))) := by
    rw [execSteps_cons_ok cs cb (mid ++ [(es, eb)]) none none _ hstep]
    rw [execSteps_append_ok mid [(es, eb)] none none effsM hm]
    rw [execSteps_cons_ok es eb [] none (some (extractCapture eb)) _ hext]
    rfl
  refine ⟨⟨some (extractCapture eb),
           ["click", "click", "wait_load"] ++ (effsM ++ (["extract"] ++ []))⟩, ?_, rfl⟩
  unfold execute_steps
  rw [hA]

/-- Witness for claim C3: a concrete two-step plan, click failing twice with
a non-timeout error, then an extract that succeeds. -/
theorem click_soft_fail_reaches_extract_witness :
    ∃ r, execute_steps
        [({ action := some "click", selector := some "#btn" },
          { attempts := [Outcome.err, Outcome.err] }),
         ({ action := some "extract", selector := some "a[href*='/d/']" },
          { innerText := "Title", href := some "/d/xyz" })] = Except.ok r ∧
      r.extracted =
        some (extractCapture { innerText := "Title", href := some "/d/xyz" }) :=
  click_soft_fail_reaches_extract
    { action := some "click", selector := some "#btn" }
    { attempts := [Outcome.err, Outcome.err] } []
    { action := some "extract", selector := some "a[href*='/d/']" }
    { innerText := "Title", href := some "/d/xyz" }
    rfl rfl rfl rfl (by decide) ⟨[], rfl⟩ rfl rfl rfl

/- ============ claim C6 ============ -/

/-- Claim C6: `run_goal` never raises — its body's only escaping exceptions
are caught by the top-level `except PWTimeout` / `except Exception`, both of
which return an empty result list — and the `finally` closes the browser on
every exit path (success, timeout, or error). -/
theorem run_goal_never_raises_teardown (env : RunEnv) (goal : String) :
    (run_goal env goal).browserClosed = true ∧
    (∀ e, runBody env goal = Except.error e → (run_goal env goal).results = []) := by
  constructor
  · unfold run_goal
    cases h : runBody env goal with
    | ok rs => rfl
    | error e => cases e <;> rfl
  · intro e he
    unfold run_goal
    rw [he]
    cases e <;> rfl

/-- A concrete `run_goal` environment whose opening navigation times out. -/
def envGotoTimeout : RunEnv :=
  { gotoHome := Outcome.timeout,
    page := ⟨START_URL, Except.error (), Except.error (), Except.ok 1, Except.ok 1,
             RemotePath.notConfigured⟩,
    geminiAvail := false, gemini := fun _ => none, stepBehaviors := [],
    urlAfter := "", gotoBrowse := Outcome.ok,
    anchorsQuery := Except.ok [], fallbackFirst := Except.error () }

/-- Witness for claim C6: when the first navigation times out, `run_goal`
returns an empty result list and the browser is closed. -/
theorem run_goal_never_raises_teardown_witness :
    (run_goal envGotoTimeout "crimes in LA").browserClosed = true ∧
    (run_goal envGotoTimeout "crimes in LA").results = [] :=
  ⟨(run_goal_never_raises_teardown envGotoTimeout "crimes in LA").1,
   (run_goal_never_raises_teardown envGotoTimeout "crimes in LA").2 Exn.pwTimeout rfl⟩

end Agent
